import Mathlib

/-!
Verification of the Currency-Converter chat bot (single source file
`3_bot_telegram.py`) against its natural-language specification.

The Python source is shallowly embedded: every pure computation of the
script (amount parsing, custom-pair parsing, rate-source fallback, reply
formatting, chart-data ordering, figure-handle accounting, startup
configuration) is translated into an executable Lean definition.  Network
and library collaborators (the FastForex HTTP API, the offline
CurrencyConverter table, matplotlib, the chat transport) are modelled as
explicit oracle arguments: the handlers receive the outcome each
collaborator would produce and the definitions reproduce the script's
control flow on those outcomes.

Numbers are modelled with `ℚ` (CPython floats idealised as exact
rationals); Python strings are modelled by `String` / `List Char`, with
ASCII-faithful versions of `str.strip`, `str.upper`, `str.lower`,
`str.split` and of `float()` literal parsing (the Unicode-only behaviours
of those CPython functions, e.g. case mapping outside ASCII, are outside
the model and theorems about full parses carry an ASCII hypothesis where
it matters).
-/

namespace CurrencyBot

/-- Characters treated as whitespace by CPython `str.strip()` / `float()`
within the ASCII range: space, `\t`, `\n`, `\v`, `\f`, `\r` and the
file/group/record/unit separators 0x1C–0x1F. -/
def isPySpace (c : Char) : Bool :=
  c.toNat = 32 || (9 ≤ c.toNat && c.toNat ≤ 13) || (28 ≤ c.toNat && c.toNat ≤ 31)

/-- Model of CPython `str.strip()` on a character list: drop whitespace
from both ends. -/
def pyStripList (cs : List Char) : List Char :=
  ((cs.dropWhile isPySpace).reverse.dropWhile isPySpace).reverse

/-- Model of CPython `str.strip()`. -/
def pyStrip (s : String) : String := ⟨pyStripList s.data⟩

/-- ASCII case mapping used by `str.upper()` (identity off `a`–`z`). -/
def upperAscii (c : Char) : Char :=
  if 'a' ≤ c ∧ c ≤ 'z' then Char.ofNat (c.toNat - 32) else c

/-- Model of CPython `str.upper()` restricted to ASCII case mapping. -/
def pyUpper (s : String) : String := ⟨s.data.map upperAscii⟩

/-- ASCII case mapping used by `str.lower()` (identity off `A`–`Z`). -/
def lowerAscii (c : Char) : Char :=
  if 'A' ≤ c ∧ c ≤ 'Z' then Char.ofNat (c.toNat + 32) else c

/-- Model of CPython `str.split(sep)` for a single-character separator:
splits at every occurrence of `sep`, keeping empty fields, and returns
`[[]]` on the empty string — exactly CPython's semantics. -/
def splitChar (sep : Char) : List Char → List (List Char)
  | [] => [[]]
  | c :: cs =>
    match splitChar sep cs with
    | [] => [[c]]
    | g :: gs => if c = sep then [] :: g :: gs else (c :: g) :: gs

/-- ASCII decimal digit test. -/
def isAsciiDigit (c : Char) : Bool := '0' ≤ c && c ≤ '9'

/-- Numeric value of an ASCII digit character. -/
def digitVal (c : Char) : ℕ := c.toNat - 48

/-- Continuation of a CPython numeric digit group after its first digit.
CPython permits `_` in numeric literals only between two digits, so after
an underscore a digit must follow, and a trailing underscore is an error.
The flag records whether the previous character was an underscore. -/
def digitsGroupAux : Bool → List Char → Option (List ℕ)
  | false, [] => some []
  | true, [] => none
  | afterU, c :: cs =>
    if isAsciiDigit c then (digitsGroupAux false cs).map (digitVal c :: ·)
    else if c = '_' then (if afterU then none else digitsGroupAux true cs)
    else none

/-- A possibly-empty CPython digit group (`digit (_? digit)*` or empty):
returns the digit values, or `none` when the group is malformed. -/
def parseDigitGroup : List Char → Option (List ℕ)
  | [] => some []
  | c :: cs =>
    if isAsciiDigit c then (digitsGroupAux false cs).map (digitVal c :: ·) else none

/-- Split a character list at the first character satisfying `p`; the
second component is `none` when no such character occurs. -/
def splitOnFirst (p : Char → Bool) : List Char → List Char × Option (List Char)
  | [] => ([], none)
  | c :: cs =>
    if p c then ([], some cs)
    else
      let r := splitOnFirst p cs
      (c :: r.1, r.2)

/-- Strip an optional leading sign; returns (negative?, rest). -/
def splitSign : List Char → Bool × List Char
  | [] => (false, [])
  | c :: cs =>
    if c = '-' then (true, cs) else if c = '+' then (false, cs) else (false, c :: cs)

/-- Decimal value of a digit sequence (most significant first). -/
def digitsToNat (ds : List ℕ) : ℕ := ds.foldl (fun a d => 10 * a + d) 0

/-- Parse the mantissa of a CPython float literal (`digits`, `digits.`,
`digits.digits` or `.digits`, underscores between digits allowed):
returns (all mantissa digits as a number, number of fractional digits). -/
def parseMantissa (cs : List Char) : Option (ℕ × ℕ) :=
  let s := splitOnFirst (· = '.') cs
  match s.2 with
  | none =>
    (parseDigitGroup s.1).bind fun ds =>
      if ds.isEmpty then none else some (digitsToNat ds, 0)
  | some fpart =>
    (parseDigitGroup s.1).bind fun ds =>
      (parseDigitGroup fpart).bind fun fs =>
        if ds.isEmpty && fs.isEmpty then none
        else some (digitsToNat (ds ++ fs), fs.length)

/-- Parse the exponent suffix of a CPython float literal (optional sign,
then a nonempty digit group). -/
def parseExpPart (cs : List Char) : Option ℤ :=
  let s := splitSign cs
  (parseDigitGroup s.2).bind fun ds =>
    if ds.isEmpty then none
    else some (if s.1 then -(digitsToNat ds : ℤ) else (digitsToNat ds : ℤ))

/-- The value classes a CPython `float(...)` call can produce: a finite
value (idealised as an exact rational), the two infinities, or NaN. -/
inductive PyVal where
  | finite (q : ℚ)
  | pinf
  | ninf
  | nan
  deriving DecidableEq

/-- The rational `sm * 10 ^ (e - fracLen)` built without rational
division so that it evaluates by kernel reduction. -/
def decValue (neg : Bool) (m : ℕ) (fracLen : ℕ) (e : ℤ) : ℚ :=
  let sm : ℤ := if neg then -(m : ℤ) else (m : ℤ)
  let e2 : ℤ := e - (fracLen : ℤ)
  if 0 ≤ e2 then mkRat (sm * 10 ^ e2.toNat) 1 else mkRat sm (10 ^ (-e2).toNat)

/-- Model of CPython `float(s)` on ASCII input: strip whitespace, strip
an optional sign, accept the case-insensitive specials `inf`, `infinity`
and `nan`, otherwise parse `mantissa[(e|E)exponent]`.  Returns `none`
exactly when CPython raises `ValueError`. -/
def pyFloatOfList (cs0 : List Char) : Option PyVal :=
  let s := splitSign (pyStripList cs0)
  let low := s.2.map lowerAscii
  if low = "inf".data ∨ low = "infinity".data then
    some (if s.1 then PyVal.ninf else PyVal.pinf)
  else if low = "nan".data then some PyVal.nan
  else
    let me := splitOnFirst (fun c => c = 'e' || c = 'E') s.2
    match parseMantissa me.1 with
    | none => none
    | some mf =>
      match me.2 with
      | none => some (PyVal.finite (decValue s.1 mf.1 mf.2 0))
      | some ecs =>
        match parseExpPart ecs with
        | none => none
        | some e => some (PyVal.finite (decValue s.1 mf.1 mf.2 e))

/-- CPython comparison `v <= 0` for a float value; note `nan <= 0` is
`False`, which is what lets `float("nan")` slip through the guard in
`process_amount`. -/
def pyValNonPos : PyVal → Bool
  | PyVal.finite q => decide (q ≤ 0)
  | PyVal.pinf => false
  | PyVal.ninf => true
  | PyVal.nan => false

/-- The accept/reject computation of `process_amount` (source lines
238-241): `amount = float(message.text.strip())`, then `ValueError`
when `amount <= 0`.  Returns the stored amount, or `none` on the
re-prompt path. -/
def process_amount (text : String) : Option PyVal :=
  match pyFloatOfList text.data with
  | none => none
  | some v => if pyValNonPos v then none else some v

/-- One step of the amount dialogue: on success the amount is stored in
the user's session entry (source lines 244-246), on failure the session
entry is untouched and the user is re-prompted (lines 254-259).  The
Bool records acceptance. -/
def amountStep (stored : Option PyVal) (text : String) : Option PyVal × Bool :=
  match process_amount text with
  | some v => (some v, true)
  | none => (stored, false)

/-- Render digit values (each `< 10`) as characters. -/
def renderDigits (ds : List ℕ) : List Char := ds.map Nat.digitChar

/-- A plain decimal numeral string `ds` or `ds.fs`, built from digit
values; this is the spec's notion of a decimal number (it is the
spec-side grammar, no signs, exponents, specials or underscores). -/
def decString (ds fs : List ℕ) : String :=
  if fs = [] then ⟨renderDigits ds⟩ else ⟨renderDigits ds ++ '.' :: renderDigits fs⟩

/-- Exact rational value of the decimal numeral `ds.fs`. -/
def decNumValue (ds fs : List ℕ) : ℚ :=
  mkRat (digitsToNat (ds ++ fs) : ℤ) (10 ^ fs.length)

/-- Spec-side predicate, following the spec's words: the string is a
plain positive decimal numeral (digits, optionally a point and digits,
positive value).  Used to compare the spec's accepted set with the
code's accepted set. -/
def isPositiveDecimalString (s : String) : Bool :=
  let p := splitOnFirst (· = '.') s.data
  match p.2 with
  | none => !p.1.isEmpty && p.1.all isAsciiDigit && decide (0 < digitsToNat (p.1.map digitVal))
  | some fpart =>
    !p.1.isEmpty && p.1.all isAsciiDigit && fpart.all isAsciiDigit &&
      decide (0 < digitsToNat ((p.1 ++ fpart).map digitVal))

/-- The pair-validation step shared by `process_custom_pair` (source
lines 266-272) and `process_custom_graph_pair` (lines 327-333):
`pair = message.text.strip().upper()`, `currencies = pair.split('/')`,
reject unless exactly two fields each of length 3 (characters are NOT
checked to be alphabetic).  Returns the uppercased (base, target). -/
def parsePair (text : String) : Option (String × String) :=
  let pair := pyUpper (pyStrip text)
  match splitChar '/' pair.data with
  | [b, t] => if b.length = 3 ∧ t.length = 3 then some (⟨b⟩, ⟨t⟩) else none
  | _ => none

/-- Spec-side predicate, following the spec's words: the string matches
the regular expression `^[A-Za-z]{3}/[A-Za-z]{3}$`. -/
def isAsciiAlpha (c : Char) : Bool :=
  ('A' ≤ c && c ≤ 'Z') || ('a' ≤ c && c ≤ 'z')

/-- Spec-side pair grammar `^[A-Za-z]{3}/[A-Za-z]{3}$`, to compare with
the code's accepted set. -/
def specPairRegexMatch (s : String) : Bool :=
  match s.data with
  | [a, b, c, sl, d, e, f] =>
    isAsciiAlpha a && isAsciiAlpha b && isAsciiAlpha c && sl = '/' &&
      isAsciiAlpha d && isAsciiAlpha e && isAsciiAlpha f
  | _ => false

/-- Round `num / den` (with `den > 0`) to the nearest integer, ties to
even — the rounding CPython's fixed-point float formatting applies. -/
def roundHalfEvenScaled (num den : ℤ) : ℤ :=
  let f := Int.fdiv num den
  let r := num - den * f
  if 2 * r < den then f else if den < 2 * r then f + 1 else if f % 2 = 0 then f else f + 1

/-- Exactly `k` decimal characters of `n % 10 ^ k`, zero padded. -/
def natDigitsPadded : ℕ → ℕ → List Char
  | 0, _ => []
  | k + 1, n => natDigitsPadded k (n / 10) ++ [Nat.digitChar (n % 10)]

/-- Model of CPython fixed-point formatting `format(q, '.kf')` on an
exact rational: round-half-even at `k` decimal places, sign taken from
the value, fractional part zero padded to exactly `k` digits. -/
def formatFixed (k : ℕ) (q : ℚ) : String :=
  let n := roundHalfEvenScaled (q.num * 10 ^ k) q.den
  let sign := if q < 0 then "-" else ""
  let na := n.natAbs
  let ipart := toString (na / 10 ^ k)
  if k = 0 then sign ++ ipart
  else sign ++ ipart ++ "." ++ ⟨natDigitsPadded k (na % 10 ^ k)⟩

/-- Outcome of one FastForex `fetch-one` HTTP exchange, as seen by
`get_exchange_rate`: either the request itself failed (non-2xx status,
network error or timeout — `requests.exceptions.RequestException`), or a
JSON payload arrived carrying an optional `result` rate for the target
currency and an optional `error` string. -/
inductive ApiResp where
  | netError (msg : String)
  | payload (result : Option ℚ) (err : Option String)
  deriving DecidableEq

/-- Model of `get_exchange_rate` (source lines 51-65): a `result` field
yields the rate; a payload without `result` raises
`API Error: <error or Unknown error>`; a request failure raises
`Connection error: <cause>`. -/
def get_exchange_rate (resp : ApiResp) : Except String ℚ :=
  match resp with
  | ApiResp.netError m => Except.error ("Connection error: " ++ m)
  | ApiResp.payload (some r) _ => Except.ok r
  | ApiResp.payload none err => Except.error ("API Error: " ++ err.getD "Unknown error")

/-- The two-source rate fallback of `process_custom_pair` (source lines
276-303): try the offline CurrencyConverter table; on any failure make
one `get_exchange_rate` call; if that also fails, raise
`Currency conversion failed: <api error>`.  The second component counts
the remote API calls made. -/
def resolveRate (offline : Except String ℚ) (remote : Except String ℚ) :
    Except String ℚ × ℕ :=
  match offline with
  | Except.ok r => (Except.ok r, 0)
  | Except.error _ =>
    match remote with
    | Except.ok r => (Except.ok r, 1)
    | Except.error m => (Except.error ("Currency conversion failed: " ++ m), 1)

/-- The same fallback as it appears in `handle_callback_query` (source
lines 380-386): there the remote failure propagates unwrapped to the
outer dispatch handler.  Again the second component counts API calls. -/
def resolveRateCb (offline : Except String ℚ) (remote : Except String ℚ) :
    Except String ℚ × ℕ :=
  match offline with
  | Except.ok r => (Except.ok r, 0)
  | Except.error _ => (remote, 1)

/-- The conversion reply (source lines 282-285 and 390-393), built from
the stored amount, the resolved rate and the uppercased codes; the
converted value is `amount * rate`, amount and value are rendered with
2 decimals and the rate with 4.  The leading characters reproduce the
source bytes verbatim. -/
def conversionReply (amount rate : ℚ) (base target : String) : String :=
  "\uF8FF\u00FC\u00ED\u00B1 *Conversion Result:*\n\n" ++
    formatFixed 2 amount ++ " " ++ base ++ " = " ++
    formatFixed 2 (amount * rate) ++ " " ++ target ++
    "\nRate: 1 " ++ base ++ " = " ++ formatFixed 4 rate ++ " " ++ target ++
    "\n\nUse /convert to convert another amount."

/-- Re-prompt sent on a malformed custom pair (source lines 306-309). -/
def invalidPairReply : String :=
  "\u201A\u00F6\u2020\u00D4\u220F\u00E8 Invalid format. Please use the format: USD/EUR"

/-- Error reply of `process_custom_pair` when both rate sources fail
(source lines 312-320): two messages are sent before re-prompting. -/
def pairErrorReplies (e : String) : List String :=
  ["\u201A\u00F9\u00E5 Error: " ++ e ++ "\n\nPlease try a different currency pair.",
   "Enter a currency pair (e.g., USD/EUR):"]

/-- Generic apology emitted by the outer `except` of
`handle_callback_query` (source lines 478-484). -/
def callbackErrorReply (e : String) : String :=
  "\u201A\u00F9\u00E5 An error occurred: " ++ e ++ "\n\nPlease try again or use /help."

/-- CPython's `ValueError` message for unpacking a `len n` list into two
variables, raised by `base, target = pair.upper().split('/')` when the
split does not give exactly two fields. -/
def unpackErrMsg (n : ℕ) : String :=
  if n < 2 then "not enough values to unpack (expected 2, got " ++ toString n ++ ")"
  else "too many values to unpack (expected 2)"

/-- A user's entry in `user_data`: the keys `amount` and `graph_pair`
are each present or absent. -/
structure Session where
  amount : Option ℚ
  graphPair : Option String
  deriving DecidableEq

/-- The `convert_<pair>` branch of `handle_callback_query` (source lines
375-395): strip the `convert_` prefix (the dispatch guarantees the data
is `convert_` followed by the pair, so dropping 8 characters models
`replace('convert_', '')`), uppercase and split the pair, read the
stored amount with default 0, resolve the rate offline-first, and send
either the conversion reply or — when the unpacking or both rate
sources fail — the outer-handler apology.  The session is returned
unchanged: this branch never writes `user_data`. -/
def handleConvertCallback (sess : Session) (data : String)
    (offline : Except String ℚ) (remote : Except String ℚ) : String × Session :=
  let pair := pyUpper ⟨data.data.drop 8⟩
  match splitChar '/' pair.data with
  | [b, t] =>
    let amount := sess.amount.getD 0
    (match (resolveRateCb offline remote).1 with
     | Except.ok rate => conversionReply amount rate ⟨b⟩ ⟨t⟩
     | Except.error m => callbackErrorReply m, sess)
  | gs => (callbackErrorReply (unpackErrMsg gs.length), sess)

/-- One step of `process_custom_pair` (source lines 261-321): validate
the typed pair; on failure re-prompt; on success read the stored amount
with default 0, resolve the rate offline-first and reply, or send the
two-message error sequence when both sources fail.  The function never
writes `user_data`, so the session is returned unchanged. -/
def processCustomPairStep (sess : Session) (text : String)
    (offline : Except String ℚ) (remote : Except String ℚ) : List String × Session :=
  match parsePair text with
  | none => ([invalidPairReply], sess)
  | some bt =>
    let amount := sess.amount.getD 0
    match resolveRate offline remote with
    | (Except.ok rate, _) => ([conversionReply amount rate bt.1 bt.2], sess)
    | (Except.error m, _) => (pairErrorReplies m, sess)

/-- Prompt listing the graph timeframes (source lines 343-347). -/
def timeframePrompt (b t : String) : String :=
  "Select time period for " ++ b ++ "/" ++ t ++ " graph:"

/-- One step of `process_custom_graph_pair` (source lines 323-354):
validate the typed pair; on failure re-prompt leaving the session
untouched; on success store the uppercased pair string under
`graph_pair` and prompt for a timeframe. -/
def processCustomGraphPairStep (sess : Session) (text : String) :
    List String × Session :=
  match parsePair text with
  | none => ([invalidPairReply], sess)
  | some bt =>
    ([timeframePrompt bt.1 bt.2],
     { sess with graphPair := some (bt.1 ++ "/" ++ bt.2) })

/-- The pair-selection logic of the `timeframe_<pair>_<days>` branch of
`handle_callback_query` (source lines 429-437): split the callback data
on `_` into exactly three fields; when the session holds a `graph_pair`
it OVERRIDES the pair encoded in the callback data; otherwise the
callback pair is used.  Returns (pair used, days field); `none` models
the `ValueError` of unpacking when the split is not three fields. -/
def timeframePairUsed (sess : Session) (data : String) : Option (String × String) :=
  match splitChar '_' data.data with
  | [_, p, d] =>
    match sess.graphPair with
    | some gp => some (gp, ⟨d⟩)
    | none => some (⟨p⟩, ⟨d⟩)
  | _ => none

/-- The stages of `create_currency_graph` (source lines 83-123) at which
the underlying collaborators can raise: the historical-rates fetch (line
89, before any figure exists), the per-date rate extraction (line 93,
also before any figure exists), or the rendering/encoding work between
`plt.figure()` (line 95) and `plt.close()` (line 118). -/
inductive ChartStage where
  | fetch
  | extract
  | render
  deriving DecidableEq

/-- Matplotlib figure accounting of one `create_currency_graph` call:
`open0` figures exist in the process-global pyplot state on entry; the
result is (figures open on return, call succeeded).  The `except` block
(lines 121-123) re-raises without closing, so a failure after
`plt.figure()` leaves the new figure open. -/
def chartFigures (failAt : Option ChartStage) (open0 : ℕ) : ℕ × Bool :=
  match failAt with
  | some ChartStage.fetch => (open0, false)
  | some ChartStage.extract => (open0, false)
  | some ChartStage.render => (open0 + 1, false)
  | none => (open0 + 1 - 1, true)

/-- Dates of the historical series, sorted as `sorted(data.keys())`
does (source line 92): lexicographic string order.  The series is the
association list of the JSON `results` object (distinct date keys). -/
def chartDates (data : List (List Char × ℚ)) : List (List Char) :=
  List.insertionSort (· ≤ ·) (data.map Prod.fst)

/-- Rate plotted for one date: `data[date][target]` (source line 93). -/
def chartRateAt (data : List (List Char × ℚ)) (d : List Char) : ℚ :=
  (data.lookup d).getD 0

/-- The plotted rate series, in date-sorted order (source line 93). -/
def chartRates (data : List (List Char × ℚ)) : List ℚ :=
  (chartDates data).map (chartRateAt data)

/-- The `Current: <rate>` marker drawn on the last plotted point (source
lines 105-112): present only when the series is nonempty, and showing
`rates[-1]` with 4 decimals. -/
def chartCurrentLabel (data : List (List Char × ℚ)) : Option String :=
  match (chartRates data).getLast? with
  | none => none
  | some r => some ("Current: " ++ formatFixed 4 r)

/-- Model of `os.getenv` over an explicit environment. -/
def osGetenv (env : List (String × String)) (k : String) : Option String :=
  env.lookup k

/-- The startup configuration reads (source lines 26-27): both secrets
are read with `os.getenv` and NOT validated — a missing variable just
leaves `None` in the corresponding global. -/
def loadSecrets (env : List (String × String)) : Option String × Option String :=
  (osGetenv env "API_KEY", osGetenv env "BOT_TOKEN")

/-- The `__main__` block (source lines 496-501): `infinity_polling` runs
until it returns or raises; any exception — including the authorization
failure produced by a missing or invalid bot token — is caught, logged,
and the script falls off the end.  The result is the process exit
status, which is therefore always 0. -/
def botMainExit (pollOutcome : Except String Unit) : ℕ :=
  match pollOutcome with
  | Except.ok _ => 0
  | Except.error _ => 0

/-- `splitChar` never returns the empty list of fields. -/
theorem splitChar_ne_nil (sep : Char) (cs : List Char) : splitChar sep cs ≠ [] := by
  induction cs with
  | nil => simp [splitChar]
  | cons c cs ih =>
    simp only [splitChar]
    rcases h : splitChar sep cs with _ | ⟨g, gs⟩
    · simp
    · by_cases hc : c = sep <;> simp [hc]

/-- A field produced by `splitChar` never contains the separator. -/
theorem splitChar_sep_not_mem (sep : Char) (cs : List Char) :
    ∀ g ∈ splitChar sep cs, sep ∉ g := by
  induction cs with
  | nil => intro g hg; simp [splitChar] at hg; simp [hg]
  | cons c cs ih =>
    intro g hg
    simp only [splitChar] at hg
    rcases h : splitChar sep cs with _ | ⟨g0, gs⟩
    · exact absurd h (splitChar_ne_nil sep cs)
    · rw [h] at hg
      by_cases hc : c = sep
      · simp only [if_pos hc, List.mem_cons] at hg
        rcases hg with rfl | hg
        · simp
        · exact ih g (by rw [h]; exact List.mem_cons.mpr hg)
      · simp only [if_neg hc, List.mem_cons] at hg
        rcases hg with rfl | hg
        · simp only [List.mem_cons]
          push_neg
          refine ⟨fun hcs => hc hcs.symm, ?_⟩
          exact ih g0 (by rw [h]; exact List.mem_cons_self g0 gs)
        · exact ih g (by rw [h]; exact List.mem_cons_of_mem g0 hg)

/-- Interleave the separator back between fields. -/
def joinSep (sep : Char) : List (List Char) → List Char
  | [] => []
  | [g] => g
  | g :: gs => g ++ sep :: joinSep sep gs

/-- Splitting and re-joining is the identity on the input string. -/
theorem joinSep_splitChar (sep : Char) (cs : List Char) :
    joinSep sep (splitChar sep cs) = cs := by
  induction cs with
  | nil => simp [splitChar, joinSep]
  | cons c cs ih =>
    simp only [splitChar]
    rcases h : splitChar sep cs with _ | ⟨g, gs⟩
    · exact absurd h (splitChar_ne_nil sep cs)
    · rw [h] at ih
      by_cases hc : c = sep
      · subst hc
        simp only [if_pos rfl, joinSep]
        rcases gs with _ | ⟨g2, gs⟩ <;> simpa [joinSep] using ih
      · simp only [if_neg hc]
        rcases gs with _ | ⟨g2, gs⟩ <;> simpa [joinSep] using ih

/-- Splitting a separator-free string yields the single field. -/
theorem splitChar_of_not_mem {sep : Char} {cs : List Char} (h : sep ∉ cs) :
    splitChar sep cs = [cs] := by
  induction cs with
  | nil => simp [splitChar]
  | cons c cs ih =>
    have hc : c ≠ sep := fun hcs => h (hcs ▸ List.mem_cons_self c cs)
    have htail : sep ∉ cs := fun hcs => h (List.mem_cons_of_mem c hcs)
    simp only [splitChar, ih htail]
    simp [hc]

/-- Splitting at an explicit first separator occurrence peels one field. -/
theorem splitChar_append_sep (sep : Char) {x : List Char} (y : List Char)
    (hx : sep ∉ x) : splitChar sep (x ++ sep :: y) = x :: splitChar sep y := by
  induction x with
  | nil =>
    simp only [List.nil_append, splitChar]
    rcases h : splitChar sep y with _ | ⟨g, gs⟩
    · exact absurd h (splitChar_ne_nil sep y)
    · simp
  | cons c x ih =>
    have hc : c ≠ sep := fun hcs => hx (hcs ▸ List.mem_cons_self c x)
    have hxt : sep ∉ x := fun hcs => hx (List.mem_cons_of_mem c hcs)
    simp only [List.cons_append, splitChar, List.append_eq]
    rw [ih hxt]
    simp [hc]

/-- All the character-level facts about a rendered digit needed to track
a numeral through the float parser, proved by enumerating `d < 10`. -/
theorem digitChar_facts {d : ℕ} (hd : d < 10) :
    isAsciiDigit (Nat.digitChar d) = true ∧ digitVal (Nat.digitChar d) = d ∧
    isPySpace (Nat.digitChar d) = false ∧
    lowerAscii (Nat.digitChar d) = Nat.digitChar d ∧
    Nat.digitChar d ≠ '_' ∧ Nat.digitChar d ≠ '.' ∧
    Nat.digitChar d ≠ '-' ∧ Nat.digitChar d ≠ '+' ∧
    Nat.digitChar d ≠ 'e' ∧ Nat.digitChar d ≠ 'E' ∧
    Nat.digitChar d ≠ 'i' ∧ Nat.digitChar d ≠ 'n' := by
  interval_cases d <;> exact ⟨rfl, rfl, rfl, rfl, by decide, by decide, by decide,
    by decide, by decide, by decide, by decide, by decide⟩

/-- Dropping by a predicate that holds nowhere drops nothing. -/
theorem dropWhile_of_all_neg {p : Char → Bool} {cs : List Char}
    (h : ∀ c ∈ cs, p c = false) : cs.dropWhile p = cs := by
  cases cs with
  | nil => rfl
  | cons c cs => simp [List.dropWhile_cons, h c (List.mem_cons_self c cs)]

/-- Stripping a string with no whitespace anywhere is the identity. -/
theorem pyStripList_of_all_neg {cs : List Char}
    (h : ∀ c ∈ cs, isPySpace c = false) : pyStripList cs = cs := by
  unfold pyStripList
  rw [dropWhile_of_all_neg h,
    dropWhile_of_all_neg (fun c hc => h c (List.mem_reverse.mp hc)), List.reverse_reverse]

/-- `splitOnFirst` finds nothing when the predicate holds nowhere. -/
theorem splitOnFirst_of_all_neg {p : Char → Bool} {cs : List Char}
    (h : ∀ c ∈ cs, p c = false) : splitOnFirst p cs = (cs, none) := by
  induction cs with
  | nil => rfl
  | cons c cs ih =>
    simp only [splitOnFirst, h c (List.mem_cons_self c cs)]
    rw [ih (fun a ha => h a (List.mem_cons_of_mem c ha))]
    simp

/-- `splitOnFirst` splits at an explicit first occurrence. -/
theorem splitOnFirst_first_occ {p : Char → Bool} {x : List Char} {sep : Char}
    (y : List Char) (hsep : p sep = true) (hx : ∀ c ∈ x, p c = false) :
    splitOnFirst p (x ++ sep :: y) = (x, some y) := by
  induction x with
  | nil => simp [splitOnFirst, hsep]
  | cons c x ih =>
    simp only [List.cons_append, splitOnFirst, hx c (List.mem_cons_self c x),
      List.append_eq]
    rw [ih (fun a ha => hx a (List.mem_cons_of_mem c ha))]
    simp

/-- The digit-group scanner accepts a rendered digit sequence. -/
theorem digitsGroupAux_render {ds : List ℕ} (h : ∀ d ∈ ds, d < 10) :
    digitsGroupAux false (renderDigits ds) = some ds := by
  induction ds with
  | nil => rfl
  | cons d ds ih =>
    have hd := digitChar_facts (h d (List.mem_cons_self d ds))
    simp only [renderDigits, List.map_cons, digitsGroupAux, hd.1, if_pos]
    rw [show (List.map Nat.digitChar ds) = renderDigits ds from rfl,
      ih (fun a ha => h a (List.mem_cons_of_mem d ha))]
    simp [hd.2.1]

/-- The digit-group parser accepts a rendered digit sequence. -/
theorem parseDigitGroup_render {ds : List ℕ} (h : ∀ d ∈ ds, d < 10) :
    parseDigitGroup (renderDigits ds) = some ds := by
  cases ds with
  | nil => rfl
  | cons d ds =>
    have hd := digitChar_facts (h d (List.mem_cons_self d ds))
    simp only [renderDigits, List.map_cons, parseDigitGroup, hd.1, if_pos]
    rw [show (List.map Nat.digitChar ds) = renderDigits ds from rfl,
      digitsGroupAux_render (fun a ha => h a (List.mem_cons_of_mem d ha))]
    simp [hd.2.1]

/-- In a `≤`-sorted list the last element is maximal. -/
theorem sorted_le_getLast {α : Type} [LinearOrder α] {l : List α}
    (hs : List.Sorted (· ≤ ·) l) (h : l ≠ []) : ∀ x ∈ l, x ≤ l.getLast h := by
  induction l with
  | nil => exact absurd rfl h
  | cons a t ih =>
    intro x hx
    rcases t with _ | ⟨b, t⟩
    · simp only [List.mem_singleton] at hx
      simp [hx, List.getLast]
    · rw [List.getLast_cons (by simp)]
      rcases List.mem_cons.mp hx with rfl | hx
      · exact (List.pairwise_cons.mp hs).1 _ (List.getLast_mem (by simp))
      · exact ih (List.pairwise_cons.mp hs).2 (by simp) x hx

/-- Every character of a rendered digit list is a digit character of a
value below 10. -/
theorem renderDigits_mem {ds : List ℕ} (h : ∀ d ∈ ds, d < 10) :
    ∀ c ∈ renderDigits ds, ∃ d, d < 10 ∧ c = Nat.digitChar d := by
  intro c hc
  rcases List.mem_map.mp hc with ⟨d, hd, rfl⟩
  exact ⟨d, h d hd, rfl⟩

/-- `List.map` of a pointwise-identity function. -/
theorem map_eq_self {f : Char → Char} {l : List Char} (h : ∀ c ∈ l, f c = c) :
    l.map f = l := by
  induction l with
  | nil => rfl
  | cons c l ih =>
    rw [List.map_cons, h c (List.mem_cons_self c l),
      ih (fun a ha => h a (List.mem_cons_of_mem c ha))]

/-- The mantissa-only value produced by the float parser equals the
spec-side decimal value. -/
theorem decValue_eq_decNumValue (ds fs : List ℕ) :
    decValue false (digitsToNat (ds ++ fs)) fs.length 0 = decNumValue ds fs := by
  unfold decValue decNumValue
  rcases fs with _ | ⟨f, fs⟩
  · simp
  · have hlen : ¬((0 : ℤ) ≤ 0 - ((f :: fs).length : ℤ)) := by
      simp only [List.length_cons]
      omega
    rw [if_neg hlen]
    simp

/-- CPython `float()` accepts a plain decimal numeral and produces
exactly its value.  This is the heart of the comparison between the
spec's amount grammar and the code's accepted set. -/
theorem pyFloat_decString {ds fs : List ℕ} (hds : ds ≠ [])
    (h1 : ∀ d ∈ ds, d < 10) (h2 : ∀ d ∈ fs, d < 10) :
    pyFloatOfList (decString ds fs).data =
      some (PyVal.finite (decNumValue ds fs)) := by
  rcases ds with _ | ⟨d0, ds'⟩
  · exact absurd rfl hds
  have hd0 := digitChar_facts (h1 d0 (List.mem_cons_self d0 ds'))
  -- characterise the rendered character list and its head
  have hdigs : ∀ c ∈ renderDigits (d0 :: ds'), ∃ d, d < 10 ∧ c = Nat.digitChar d :=
    renderDigits_mem h1
  have hfracs : ∀ c ∈ renderDigits fs, ∃ d, d < 10 ∧ c = Nat.digitChar d :=
    renderDigits_mem h2
  have hall : ∀ c ∈ (decString (d0 :: ds') fs).data,
      c = '.' ∨ ∃ d, d < 10 ∧ c = Nat.digitChar d := by
    intro c hc
    unfold decString at hc
    rcases fs with _ | ⟨f, fs'⟩
    · exact Or.inr (hdigs c hc)
    · simp only [if_neg (List.cons_ne_nil f fs')] at hc
      rcases List.mem_append.mp hc with hm | hm
      · exact Or.inr (hdigs c hm)
      · rcases List.mem_cons.mp hm with rfl | hm
        · exact Or.inl rfl
        · exact Or.inr (hfracs c hm)
  -- no character of the numeral is whitespace
  have hnospace : ∀ c ∈ (decString (d0 :: ds') fs).data, isPySpace c = false := by
    intro c hc
    rcases hall c hc with rfl | ⟨d, hd, rfl⟩
    · decide
    · exact (digitChar_facts hd).2.2.1
  -- no character of the numeral is an exponent marker
  have hnoexp : ∀ c ∈ (decString (d0 :: ds') fs).data,
      (decide (c = 'e') || decide (c = 'E')) = false := by
    intro c hc
    rcases hall c hc with rfl | ⟨d, hd, rfl⟩
    · decide
    · have h := digitChar_facts hd
      simp [h.2.2.2.2.2.2.2.2.1, h.2.2.2.2.2.2.2.2.2.1]
  -- lowercasing leaves the numeral unchanged
  have hlow : (decString (d0 :: ds') fs).data.map lowerAscii
      = (decString (d0 :: ds') fs).data := by
    apply map_eq_self
    intro c hc
    rcases hall c hc with rfl | ⟨d, hd, rfl⟩
    · decide
    · exact (digitChar_facts hd).2.2.2.1
  -- the rendered numeral starts with the digit character of d0
  obtain ⟨tl, htl⟩ : ∃ tl, (decString (d0 :: ds') fs).data = Nat.digitChar d0 :: tl := by
    unfold decString
    rcases fs with _ | ⟨f, fs'⟩
    · exact ⟨renderDigits ds', rfl⟩
    · simp only [if_neg (List.cons_ne_nil f fs')]
      exact ⟨renderDigits ds' ++ '.' :: renderDigits (f :: fs'), rfl⟩
  -- the sign scan does not consume the leading digit
  have hsign : splitSign ((decString (d0 :: ds') fs).data)
      = (false, (decString (d0 :: ds') fs).data) := by
    rw [htl]
    simp only [splitSign]
    rw [if_neg hd0.2.2.2.2.2.2.1, if_neg hd0.2.2.2.2.2.2.2.1]
  -- the numeral is not one of the specials
  have hne_inf : ((decString (d0 :: ds') fs).data = "inf".data) = False := by
    rw [htl]
    simp only [show "inf".data = ['i', 'n', 'f'] from rfl, List.cons.injEq,
      eq_false_intro hd0.2.2.2.2.2.2.2.2.2.2.1]
    simp
  have hne_infinity : ((decString (d0 :: ds') fs).data = "infinity".data) = False := by
    rw [htl]
    simp only [show "infinity".data = ['i', 'n', 'f', 'i', 'n', 'i', 't', 'y'] from rfl,
      List.cons.injEq, eq_false_intro hd0.2.2.2.2.2.2.2.2.2.2.1]
    simp
  have hne_nan : ((decString (d0 :: ds') fs).data = "nan".data) = False := by
    rw [htl]
    simp only [show "nan".data = ['n', 'a', 'n'] from rfl, List.cons.injEq,
      eq_false_intro hd0.2.2.2.2.2.2.2.2.2.2.2]
    simp
  -- the mantissa parse of the numeral
  have hmant : parseMantissa ((decString (d0 :: ds') fs).data)
      = some (digitsToNat ((d0 :: ds') ++ fs), fs.length) := by
    unfold parseMantissa
    rcases fs with _ | ⟨f, fs'⟩
    · have hdata : (decString (d0 :: ds') []).data = renderDigits (d0 :: ds') := by
        unfold decString; simp
      have hnodot : ∀ c ∈ (decString (d0 :: ds') []).data, decide (c = '.') = false := by
        intro c hc
        rw [hdata] at hc
        rcases hdigs c hc with ⟨d, hd, rfl⟩
        simp [(digitChar_facts hd).2.2.2.2.2.1]
      rw [hdata] at hnodot ⊢
      rw [splitOnFirst_of_all_neg hnodot]
      dsimp only
      rw [parseDigitGroup_render h1]
      simp [digitsToNat]
    · have hdecs : (decString (d0 :: ds') (f :: fs')).data
          = renderDigits (d0 :: ds') ++ '.' :: renderDigits (f :: fs') := by
        unfold decString
        simp only [if_neg (List.cons_ne_nil f fs')]
      have hnodot : ∀ c ∈ renderDigits (d0 :: ds'), decide (c = '.') = false := by
        intro c hc
        rcases hdigs c hc with ⟨d, hd, rfl⟩
        simp [(digitChar_facts hd).2.2.2.2.2.1]
      rw [hdecs, splitOnFirst_first_occ (renderDigits (f :: fs')) (by decide) hnodot]
      dsimp only
      rw [parseDigitGroup_render h1, parseDigitGroup_render h2]
      simp [renderDigits]
  -- assemble the parser run
  unfold pyFloatOfList
  rw [pyStripList_of_all_neg hnospace, hsign]
  dsimp only
  rw [hlow]
  simp only [hne_inf, hne_infinity, hne_nan, or_self, if_false]
  rw [splitOnFirst_of_all_neg hnoexp]
  dsimp only
  rw [hmant]
  dsimp only
  rw [decValue_eq_decNumValue]
/-- Full characterisation of the custom-pair validation: it accepts a
string exactly when stripping and uppercasing it gives two 3-character
`/`-free fields joined by `/`, and then returns those fields. -/
theorem parsePair_eq_some_iff {s b t : String} :
    parsePair s = some (b, t) ↔
      (pyUpper (pyStrip s) = b ++ "/" ++ t ∧ b.length = 3 ∧ t.length = 3 ∧
        '/' ∉ b.data ∧ '/' ∉ t.data) := by
  constructor
  · intro h
    unfold parsePair at h
    dsimp only at h
    rcases hsp : splitChar '/' (pyUpper (pyStrip s)).data with _ | ⟨x, l⟩
    · exact absurd hsp (splitChar_ne_nil _ _)
    rcases l with _ | ⟨y, l2⟩
    · rw [hsp] at h; exact absurd h (by simp)
    rcases l2 with _ | ⟨z, l3⟩
    · rw [hsp] at h
      dsimp only at h
      by_cases hlen : x.length = 3 ∧ y.length = 3
      · rw [if_pos hlen] at h
        have hx : b = ⟨x⟩ ∧ t = ⟨y⟩ := by
          have := Option.some.inj h
          exact ⟨congrArg Prod.fst this.symm, congrArg Prod.snd this.symm⟩
        obtain ⟨rfl, rfl⟩ := hx
        have hjoin := joinSep_splitChar '/' (pyUpper (pyStrip s)).data
        rw [hsp] at hjoin
        have hdata : (pyUpper (pyStrip s)).data = x ++ '/' :: y := by
          rw [← hjoin]; rfl
        refine ⟨String.ext ?_, hlen.1, hlen.2, ?_, ?_⟩
        · rw [hdata]
          simp
        · exact splitChar_sep_not_mem '/' _ x (by rw [hsp]; simp)
        · exact splitChar_sep_not_mem '/' _ y (by rw [hsp]; simp)
      · rw [if_neg hlen] at h
        exact absurd h (by simp)
    · rw [hsp] at h; exact absurd h (by simp)
  · rintro ⟨hu, hb, ht, hnb, hnt⟩
    unfold parsePair
    dsimp only
    have hdata : (pyUpper (pyStrip s)).data = b.data ++ '/' :: t.data := by
      rw [hu]; simp
    rw [hdata, splitChar_append_sep '/' t.data hnb, splitChar_of_not_mem hnt]
    dsimp only
    rw [if_pos ⟨hb, ht⟩]

/-- C1: for every (base, target) pair the resolver consults the offline
table first; an offline rate is used with zero remote calls; an offline
failure triggers exactly one remote call; and when the remote call also
fails the resolver signals failure carrying the remote failure's message
— wrapped as `Currency conversion failed: <msg>` in the custom-pair
handler, and propagated verbatim in the callback handler. -/
theorem rate_resolver_fallback :
    ∀ (offline : Except String ℚ) (resp : ApiResp),
    (∀ r, offline = Except.ok r →
      resolveRate offline (get_exchange_rate resp) = (Except.ok r, 0) ∧
      resolveRateCb offline (get_exchange_rate resp) = (Except.ok r, 0)) ∧
    (∀ e, offline = Except.error e →
      (resolveRate offline (get_exchange_rate resp)).2 = 1 ∧
      (resolveRateCb offline (get_exchange_rate resp)).2 = 1) ∧
    (∀ e m, offline = Except.error e → get_exchange_rate resp = Except.error m →
      resolveRate offline (get_exchange_rate resp)
        = (Except.error ("Currency conversion failed: " ++ m), 1) ∧
      resolveRateCb offline (get_exchange_rate resp) = (Except.error m, 1)) := by
  intro offline resp
  refine ⟨?_, ?_, ?_⟩
  · rintro r rfl
    exact ⟨rfl, rfl⟩
  · rintro e rfl
    rcases hr : get_exchange_rate resp with r | m <;>
      simp [resolveRate, resolveRateCb, hr]
  · rintro e m rfl hm
    rw [show get_exchange_rate resp = Except.error m from hm]
    exact ⟨rfl, rfl⟩

/-- C1 witness: a concrete run in which the offline table rejects the
pair and the remote payload carries no `result` field. -/
theorem rate_resolver_fallback_witness :
    resolveRate (Except.error "unsupported pair")
        (get_exchange_rate (ApiResp.payload none (some "No data")))
      = (Except.error ("Currency conversion failed: " ++ "API Error: No data"), 1) ∧
    resolveRateCb (Except.error "unsupported pair")
        (get_exchange_rate (ApiResp.payload none (some "No data")))
      = (Except.error "API Error: No data", 1) :=
  (rate_resolver_fallback (Except.error "unsupported pair")
    (ApiResp.payload none (some "No data"))).2.2 "unsupported pair"
    "API Error: No data" rfl rfl

/-- C6 counterexample: with both secrets absent from the environment the
configuration load still succeeds (the globals are just `None`), and when
polling later fails the exception is caught and the process exits with
status 0 — not the non-zero fail-fast exit the claim states. -/
theorem startup_failfast_refuted :
    loadSecrets [] = (none, none) ∧
    botMainExit (Except.error "401 Unauthorized") = 0 :=
  ⟨rfl, rfl⟩

/-- C6 amended: the two secrets are read once at startup but never
validated — a missing variable merely leaves `None` in the corresponding
global — and the top-level handler catches every polling exception, so
the process exit status is 0 regardless of missing credentials. -/
theorem startup_no_validation :
    ∀ (env : List (String × String)) (poll : Except String Unit),
      loadSecrets env = (osGetenv env "API_KEY", osGetenv env "BOT_TOKEN") ∧
      botMainExit poll = 0 := by
  intro env poll
  exact ⟨rfl, by cases poll <;> rfl⟩

/-- C7 counterexample: a failure raised between `plt.figure()` and
`plt.close()` (the rendering/encoding stage) returns with the freshly
opened figure still registered in the process-global pyplot state. -/
theorem chart_figure_close_refuted :
    chartFigures (some ChartStage.render) 0 = (1, false) := rfl

/-- C7 amended: the chart builder closes its figure on the success path,
and failure paths before `plt.figure()` (fetch or rate extraction) open
no figure; but a failure after the figure is created and before
`plt.close()` leaks one open figure, because the error handler re-raises
without closing. -/
theorem chart_figure_close_amended :
    ∀ (n : ℕ) (failAt : Option ChartStage),
    (failAt = none → chartFigures failAt n = (n, true)) ∧
    (failAt = some ChartStage.fetch ∨ failAt = some ChartStage.extract →
      chartFigures failAt n = (n, false)) ∧
    (failAt = some ChartStage.render → chartFigures failAt n = (n + 1, false)) := by
  intro n failAt
  refine ⟨?_, ?_, ?_⟩
  · rintro rfl; rfl
  · rintro (rfl | rfl) <;> rfl
  · rintro rfl; rfl

/-- C7 witness: the amended figure accounting at concrete stages. -/
theorem chart_figure_close_amended_witness :
    chartFigures none 0 = (0, true) ∧
    chartFigures (some ChartStage.fetch) 0 = (0, false) ∧
    chartFigures (some ChartStage.render) 2 = (3, false) :=
  ⟨(chart_figure_close_amended 0 none).1 rfl,
   (chart_figure_close_amended 0 (some ChartStage.fetch)).2.1 (Or.inl rfl),
   (chart_figure_close_amended 2 (some ChartStage.render)).2.2 rfl⟩

/-- C8: with fixed collaborator outcomes (identical upstream data) both
conversion handlers are pure and leave the session untouched, so running
the same resolution twice yields the identical reply and rate — the
second run starts from the same state and the outputs coincide. -/
theorem rate_resolution_idempotent :
    ∀ (sess : Session) (data : String) (offline remote : Except String ℚ),
    (handleConvertCallback sess data offline remote).2 = sess ∧
    handleConvertCallback (handleConvertCallback sess data offline remote).2
        data offline remote
      = handleConvertCallback sess data offline remote ∧
    (processCustomPairStep sess data offline remote).2 = sess ∧
    processCustomPairStep (processCustomPairStep sess data offline remote).2
        data offline remote
      = processCustomPairStep sess data offline remote := by
  intro sess data offline remote
  have h1 : (handleConvertCallback sess data offline remote).2 = sess := by
    unfold handleConvertCallback
    dsimp only
    split
    · rfl
    · rfl
  have h2 : (processCustomPairStep sess data offline remote).2 = sess := by
    unfold processCustomPairStep
    dsimp only
    split
    · rfl
    · split <;> rfl
  exact ⟨h1, by rw [h1], h2, by rw [h2]⟩

/-- C10: on a `timeframe_<pair>_<days>` callback the session's stored
`graph_pair` (when present) overrides the pair encoded in the callback
data; the callback pair is used only when no pair is stored. -/
theorem timeframe_stored_pair_overrides :
    ∀ (amt : Option ℚ) (gp p d : String),
      '_' ∉ p.data → '_' ∉ d.data →
      timeframePairUsed ⟨amt, some gp⟩ ("timeframe_" ++ p ++ "_" ++ d)
        = some (gp, d) ∧
      timeframePairUsed ⟨amt, none⟩ ("timeframe_" ++ p ++ "_" ++ d)
        = some (p, d) := by
  intro amt gp p d hp hd
  have hdata : ("timeframe_" ++ p ++ "_" ++ d).data
      = "timeframe".data ++ '_' :: (p.data ++ '_' :: d.data) := by
    simp
  have hsp : splitChar '_' ("timeframe_" ++ p ++ "_" ++ d).data
      = ["timeframe".data, p.data, d.data] := by
    rw [hdata, splitChar_append_sep '_' _ (by decide),
      splitChar_append_sep '_' _ hp, splitChar_of_not_mem hd]
  constructor <;> · unfold timeframePairUsed
                    rw [hsp]

/-- C10 witness: concrete sessions with and without a stored pair. -/
theorem timeframe_stored_pair_overrides_witness :
    ('_' ∉ ("usd/eur" : String).data ∧ '_' ∉ ("7" : String).data) ∧
    timeframePairUsed ⟨none, some "GBP/JPY"⟩ ("timeframe_" ++ "usd/eur" ++ "_" ++ "7")
      = some ("GBP/JPY", "7") ∧
    timeframePairUsed ⟨none, none⟩ ("timeframe_" ++ "usd/eur" ++ "_" ++ "7")
      = some ("usd/eur", "7") :=
  ⟨⟨by decide, by decide⟩,
   (timeframe_stored_pair_overrides none "GBP/JPY" "usd/eur" "7"
      (by decide) (by decide)).1,
   (timeframe_stored_pair_overrides none "GBP/JPY" "usd/eur" "7"
      (by decide) (by decide)).2⟩
/-- The padded fractional rendering has exactly the requested width. -/
theorem natDigitsPadded_length (k n : ℕ) : (natDigitsPadded k n).length = k := by
  induction k generalizing n with
  | zero => rfl
  | succ k ih => simp [natDigitsPadded, ih]

/-- C2 counterexample: the validation accepts `123/456` — two 3-character
fields that are digits, not letters — and returns it as a pair, while the
spec's regular expression `^[A-Za-z]{3}/[A-Za-z]{3}$` rejects it; the
claim that every non-matching input is rejected with a re-prompt is
therefore false. -/
theorem pair_parsing_regex_refuted :
    parsePair "123/456" = some ("123", "456") ∧
    specPairRegexMatch "123/456" = false ∧
    parsePair "  usd/eur  " = some ("USD", "EUR") ∧
    specPairRegexMatch "  usd/eur  " = false :=
  ⟨by decide, by decide, by decide, by decide⟩

/-- C2 amended: custom-pair parsing accepts exactly the strings whose
stripped, uppercased form consists of two 3-character `/`-free fields
joined by `/` (the characters need NOT be alphabetic, and surrounding
whitespace is tolerated), yielding the uppercase (base, target) pair;
every other input is rejected with the invalid-format re-prompt and no
session change. -/
theorem pair_parsing_amended :
    ∀ (s b t : String),
    (parsePair s = some (b, t) ↔
      (pyUpper (pyStrip s) = b ++ "/" ++ t ∧ b.length = 3 ∧ t.length = 3 ∧
        '/' ∉ b.data ∧ '/' ∉ t.data)) ∧
    (parsePair s = none →
      ∀ (sess : Session) (offline remote : Except String ℚ),
        processCustomPairStep sess s offline remote = ([invalidPairReply], sess) ∧
        processCustomGraphPairStep sess s = ([invalidPairReply], sess)) := by
  intro s b t
  refine ⟨parsePair_eq_some_iff, ?_⟩
  intro hnone sess offline remote
  constructor
  · unfold processCustomPairStep
    rw [hnone]
  · unfold processCustomGraphPairStep
    rw [hnone]

/-- C2 witness: `12/34` is rejected leaving the session unchanged, and
` gbp/jpy ` is accepted as (GBP, JPY) through the characterisation. -/
theorem pair_parsing_amended_witness :
    parsePair "12/34" = none ∧
    processCustomPairStep ⟨some 5, none⟩ "12/34" (Except.ok 1) (Except.ok 1)
      = ([invalidPairReply], ⟨some 5, none⟩) ∧
    processCustomGraphPairStep ⟨some 5, none⟩ "12/34"
      = ([invalidPairReply], ⟨some 5, none⟩) ∧
    parsePair " gbp/jpy " = some ("GBP", "JPY") :=
  ⟨by decide,
   ((pair_parsing_amended "12/34" "" "").2 (by decide) ⟨some 5, none⟩
      (Except.ok 1) (Except.ok 1)).1,
   ((pair_parsing_amended "12/34" "" "").2 (by decide) ⟨some 5, none⟩
      (Except.ok 1) (Except.ok 1)).2,
   (pair_parsing_amended " gbp/jpy " "GBP" "JPY").1.mpr
     ⟨by decide, by decide, by decide, by decide, by decide⟩⟩

/-- C3 counterexample: `float("nan")` succeeds and NaN fails the
`amount <= 0` guard (NaN comparisons are false), so the non-numeric
string `nan` is ACCEPTED and stored as the pending amount, contradicting
the claim that every non-numeric input is rejected; `inf` likewise. -/
theorem amount_parsing_nonnumeric_refuted :
    process_amount "nan" = some PyVal.nan ∧
    isPositiveDecimalString "nan" = false ∧
    amountStep none "nan" = (some PyVal.nan, true) ∧
    process_amount "inf" = some PyVal.pinf ∧
    isPositiveDecimalString "inf" = false :=
  ⟨by decide, by decide, by decide, by decide, by decide⟩

/-- C3 amended: every positive decimal numeral is accepted and stored
with exactly its value, and every rejected input leaves the stored
amount unchanged (re-prompt, unbounded retries); but the accepted set
additionally contains the special `float()` literals whose value does
not compare `<= 0` — `nan` (stored as NaN) and `inf` — while
non-positive numerals and other non-numeric strings are rejected. -/
theorem amount_parsing_amended :
    (∀ ds fs : List ℕ, ds ≠ [] → (∀ d ∈ ds, d < 10) → (∀ d ∈ fs, d < 10) →
      0 < decNumValue ds fs →
      process_amount (decString ds fs) = some (PyVal.finite (decNumValue ds fs)) ∧
      ∀ stored, amountStep stored (decString ds fs)
        = (some (PyVal.finite (decNumValue ds fs)), true)) ∧
    (∀ (text : String) (stored : Option PyVal), process_amount text = none →
      amountStep stored text = (stored, false)) ∧
    process_amount "nan" = some PyVal.nan ∧
    process_amount "inf" = some PyVal.pinf ∧
    process_amount "0" = none ∧
    process_amount "-5" = none ∧
    process_amount "2.x" = none := by
  refine ⟨?_, ?_, by decide, by decide, by decide, by decide, by decide⟩
  · intro ds fs hds h1 h2 hpos
    have hf := pyFloat_decString hds h1 h2
    have hnp : pyValNonPos (PyVal.finite (decNumValue ds fs)) = false := by
      simp only [pyValNonPos, decide_eq_false_iff_not, not_le]
      exact hpos
    have hpa : process_amount (decString ds fs)
        = some (PyVal.finite (decNumValue ds fs)) := by
      unfold process_amount
      rw [hf]
      simp [hnp]
    refine ⟨hpa, fun stored => ?_⟩
    unfold amountStep
    rw [hpa]
  · intro text stored h
    unfold amountStep
    rw [h]

/-- C3 witness: the numeral `1.5` is accepted with value 15/10, and a
rejected input leaves the stored amount untouched. -/
theorem amount_parsing_amended_witness :
    (([1] : List ℕ) ≠ [] ∧ (∀ d ∈ ([1] : List ℕ), d < 10) ∧
      (∀ d ∈ ([5] : List ℕ), d < 10) ∧ 0 < decNumValue [1] [5]) ∧
    process_amount (decString [1] [5]) = some (PyVal.finite (decNumValue [1] [5])) ∧
    amountStep (some (PyVal.finite 7)) "2.x" = (some (PyVal.finite 7), false) :=
  ⟨⟨by decide, by decide, by decide, by decide⟩,
   (amount_parsing_amended.1 [1] [5] (by decide) (by decide) (by decide)
      (by decide)).1,
   amount_parsing_amended.2.1 "2.x" (some (PyVal.finite 7)) (by decide)⟩

/-- C4: the chart builder plots dates in non-decreasing lexicographic
(for ISO dates, chronological) order whatever order the series arrived
in — series with the same keys produce the same plotted date axis — and
the `Current:` marker shows the rate of the chronologically last
(maximal) date, rendered with a fractional part of exactly 4 digits. -/
theorem chart_sorted_dates_current_label :
    ∀ (data data2 : List (List Char × ℚ)),
    List.Sorted (· ≤ ·) (chartDates data) ∧
    ((data.map Prod.fst).Perm (data2.map Prod.fst) →
      chartDates data = chartDates data2) ∧
    (∀ dm, (chartDates data).getLast? = some dm →
      (∀ d ∈ data.map Prod.fst, d ≤ dm) ∧
      chartCurrentLabel data
        = some ("Current: " ++ formatFixed 4 (chartRateAt data dm))) ∧
    (∀ q : ℚ, ∃ pre frac : String,
      formatFixed 4 q = pre ++ "." ++ frac ∧ frac.length = 4) := by
  intro data data2
  refine ⟨List.sorted_insertionSort _ _, ?_, ?_, ?_⟩
  · intro hperm
    have hp : (chartDates data).Perm (chartDates data2) :=
      ((List.perm_insertionSort _ _).trans hperm).trans
        (List.perm_insertionSort _ _).symm
    exact List.eq_of_perm_of_sorted hp
      (List.sorted_insertionSort _ _) (List.sorted_insertionSort _ _)
  · intro dm hdm
    have hne : chartDates data ≠ [] := by
      intro h0
      rw [h0] at hdm
      exact Option.noConfusion hdm
    have hdm2 : (chartDates data).getLast hne = dm := by
      have := List.getLast?_eq_getLast (chartDates data) hne
      rw [hdm] at this
      exact (Option.some.inj this).symm
    constructor
    · intro d hd
      have hmem : d ∈ chartDates data :=
        ((List.perm_insertionSort _ _).mem_iff).mpr hd
      rw [← hdm2]
      exact sorted_le_getLast (List.sorted_insertionSort _ _) hne d hmem
    · unfold chartCurrentLabel chartRates
      rw [List.getLast?_map, hdm]
      rfl
  · intro q
    refine ⟨(if q < 0 then "-" else "") ++ toString
        ((roundHalfEvenScaled (q.num * 10 ^ 4) q.den).natAbs / 10 ^ 4),
      ⟨natDigitsPadded 4 ((roundHalfEvenScaled (q.num * 10 ^ 4) q.den).natAbs % 10 ^ 4)⟩,
      ?_, ?_⟩
    · unfold formatFixed
      simp
    · show (natDigitsPadded 4 _).length = 4
      exact natDigitsPadded_length 4 _

/-- C4 witness: a two-point series received in reverse order is plotted
sorted, and the marker shows the rate of the later date. -/
theorem chart_sorted_dates_current_label_witness :
    (([("2024-01-02".data, mkRat 3 2), ("2024-01-01".data, mkRat 1 1)].map
        Prod.fst).Perm
      ([("2024-01-01".data, mkRat 1 1), ("2024-01-02".data, mkRat 3 2)].map
        Prod.fst)) ∧
    chartDates [("2024-01-02".data, mkRat 3 2), ("2024-01-01".data, mkRat 1 1)]
      = chartDates [("2024-01-01".data, mkRat 1 1), ("2024-01-02".data, mkRat 3 2)] ∧
    (chartDates [("2024-01-02".data, mkRat 3 2), ("2024-01-01".data, mkRat 1 1)]).getLast?
      = some "2024-01-02".data ∧
    chartCurrentLabel [("2024-01-02".data, mkRat 3 2), ("2024-01-01".data, mkRat 1 1)]
      = some ("Current: " ++ formatFixed 4
          (chartRateAt [("2024-01-02".data, mkRat 3 2), ("2024-01-01".data, mkRat 1 1)]
            "2024-01-02".data)) :=
  ⟨by decide,
   (chart_sorted_dates_current_label
      [("2024-01-02".data, mkRat 3 2), ("2024-01-01".data, mkRat 1 1)]
      [("2024-01-01".data, mkRat 1 1), ("2024-01-02".data, mkRat 3 2)]).2.1
     (by decide),
   by decide,
   ((chart_sorted_dates_current_label
      [("2024-01-02".data, mkRat 3 2), ("2024-01-01".data, mkRat 1 1)]
      [("2024-01-01".data, mkRat 1 1), ("2024-01-02".data, mkRat 3 2)]).2.2.1
     "2024-01-02".data (by decide)).2⟩

/-- C5: the conversion value is `amount * rate`; the reply renders the
amount and value with 2 decimals and the rate with 4, in the shapes
`<amount> <BASE> = <value> <TARGET>` and `Rate: 1 <BASE> = <rate>
<TARGET>`; and in scenario A (`/convert`, `100`, quick USD/EUR) the
text `100` parses to exactly 100 and the reply contains
`100.00 USD = <value> EUR`. -/
theorem conversion_reply_format :
    ∀ (amt rate : ℚ) (gp : Option String) (remote : Except String ℚ),
    handleConvertCallback ⟨some amt, gp⟩ "convert_usd/eur" (Except.ok rate) remote
      = (conversionReply amt rate "USD" "EUR", ⟨some amt, gp⟩) ∧
    (∃ suf : String, conversionReply amt rate "USD" "EUR"
      = "\uF8FF\u00FC\u00ED\u00B1 *Conversion Result:*\n\n" ++
        (formatFixed 2 amt ++ " USD = " ++ formatFixed 2 (amt * rate) ++ " EUR") ++
        ("\nRate: 1 USD = " ++ formatFixed 4 rate ++ " EUR") ++ suf) ∧
    process_amount "100" = some (PyVal.finite 100) ∧
    formatFixed 2 (100 : ℚ) = "100.00" ∧
    (∃ suf2 : String, conversionReply 100 rate "USD" "EUR"
      = "\uF8FF\u00FC\u00ED\u00B1 *Conversion Result:*\n\n100.00 USD = " ++
        formatFixed 2 (100 * rate) ++ " EUR" ++ suf2) := by
  intro amt rate gp remote
  refine ⟨rfl, ?_, by decide, by decide, ?_⟩
  · refine ⟨"\n\nUse /convert to convert another amount.", ?_⟩
    apply String.ext
    simp [conversionReply]
  · refine ⟨"\nRate: 1 USD = " ++ formatFixed 4 rate ++
      " EUR\n\nUse /convert to convert another amount.", ?_⟩
    have h100 : formatFixed 2 (100 : ℚ) = "100.00" := by decide
    apply String.ext
    simp [conversionReply, h100]

/-- C9: selecting a pair with no stored session amount does not fail:
the amount defaults to 0, the converted value is `0 * rate = 0`, and the
reply reports a conversion of `0.00`. -/
theorem missing_amount_defaults_zero :
    ∀ (gp : Option String) (rate : ℚ) (remote : Except String ℚ),
    handleConvertCallback ⟨none, gp⟩ "convert_usd/eur" (Except.ok rate) remote
      = (conversionReply 0 rate "USD" "EUR", ⟨none, gp⟩) ∧
    processCustomPairStep ⟨none, gp⟩ "USD/EUR" (Except.ok rate) remote
      = ([conversionReply 0 rate "USD" "EUR"], ⟨none, gp⟩) ∧
    (∃ suf : String, conversionReply 0 rate "USD" "EUR"
      = "\uF8FF\u00FC\u00ED\u00B1 *Conversion Result:*\n\n0.00 USD = 0.00 EUR" ++ suf) := by
  intro gp rate remote
  refine ⟨rfl, rfl, ?_⟩
  refine ⟨"\nRate: 1 USD = " ++ formatFixed 4 rate ++
    " EUR\n\nUse /convert to convert another amount.", ?_⟩
  have hz : (0 : ℚ) * rate = 0 := zero_mul rate
  have h0 : formatFixed 2 (0 : ℚ) = "0.00" := by decide
  apply String.ext
  simp [conversionReply, hz, h0]

end CurrencyBot
